import Mathlib

/-!
Verification development for the NYE-party "Time Machine" kiosk display.

The definitions below are a shallow embedding of the temporal transition and
scheduling coordinator: `TimeMachine` from `src/js/app.js`, `WormholeManager`
from the wormhole module, and `ChimesManager` from the chimes module.
State-bearing JavaScript objects become explicit state records; each handler
becomes a function from state to state paired with the list of externally
visible events it emits (in the order the awaited JavaScript sequence performs
them).
-/

namespace TimeMachineModel

/-- The static year configuration (`this.years` in the `TimeMachine`
constructor). -/
structure YearConfig where
  year : String
  era : String
  folder : String
  display : String
deriving DecidableEq, Repr

/-- `this.years`: map from year key 1–5 to its configuration; `none` models a
key that is absent (JavaScript `undefined`). -/
def years : Nat → Option YearConfig
  | 1 => some ⟨"2025", "CE", "2025", "2025 CE"⟩
  | 2 => some ⟨"1969", "CE", "1969", "1969 CE"⟩
  | 3 => some ⟨"1751", "CE", "1751", "1751 CE"⟩
  | 4 => some ⟨"423", "BCE", "423bce", "423 BCE"⟩
  | 5 => some ⟨"2026", "CE", "2026", "2026 CE"⟩
  | _ => none

/-- `this.schedule`: hour-of-day → scheduled destination year key. -/
def schedule : Nat → Option Nat
  | 20 => some 1
  | 21 => some 2
  | 22 => some 3
  | 23 => some 4
  | 0 => some 5
  | 12 => some 4
  | _ => none

/-- Externally visible events emitted by the coordinator and the wormhole
manager, listed in the order the awaited JavaScript code performs them. -/
inductive Ev where
  | pauseSlideshow
  | wormStart (label : String)
  | stopDecorativeEffects
  | stopLoopSound
  | arrivalSound
  | flashResolved
  | hideWormhole
  | commitYear (k : Nat)
  | waitMs (ms : Nat)
  | statusUpdate
  | loadMedia (folder : String)
  | factsReload (folder : String)
deriving DecidableEq, Repr

/-- Mutable state shared by `TimeMachine` and `WormholeManager`:
`currentYearKey`, `pendingYearKey` (JavaScript `undefined`/`null` is `none`),
`lastScheduledHour` (`null` is `none`), the wormhole's `isActive` flag, and
whether the slideshow is paused. -/
structure TMState where
  currentYearKey : Nat
  pendingYearKey : Option Nat
  lastScheduledHour : Option Nat
  wormActive : Bool
  slideshowPaused : Bool
deriving DecidableEq, Repr

/-- State at the end of `init()`: the display starts at year key 1. -/
def initState : TMState :=
  { currentYearKey := 1, pendingYearKey := none, lastScheduledHour := none,
    wormActive := false, slideshowPaused := false }

/-- `WormholeManager.start(yearDisplay)`: no-op if already active, otherwise
activates and begins the decorative loop. -/
def wormholeStart (s : TMState) (label : String) : TMState × List Ev :=
  if s.wormActive then (s, [])
  else ({ s with wormActive := true }, [Ev.wormStart label])

/-- `WormholeManager.stop()`: no-op if not active; otherwise halts effects,
stops the loop sound, plays the arrival sound, awaits the arrival flash, and
only then hides the wormhole and clears `isActive`. -/
def wormholeStop (s : TMState) : TMState × List Ev :=
  if !s.wormActive then (s, [])
  else ({ s with wormActive := false },
        [Ev.stopDecorativeEffects, Ev.stopLoopSound, Ev.arrivalSound,
         Ev.flashResolved, Ev.hideWormhole])

/-- `TimeMachine.goToYear(yearKey, animate)`: returns early on an unknown
key; otherwise commits `currentYearKey`, updates the display (with a 200 ms
fade when animating), refreshes the status text, reloads the slideshow for
the year's folder (which restarts auto-advance), and rebuilds the facts
ticker. -/
def goToYear (s : TMState) (k : Nat) (animate : Bool) : TMState × List Ev :=
  match years k with
  | none => (s, [])
  | some cfg =>
      ({ s with currentYearKey := k, slideshowPaused := false },
       Ev.commitYear k ::
         ((if animate then [Ev.waitMs 200] else []) ++
          [Ev.statusUpdate, Ev.loadMedia cfg.folder, Ev.factsReload cfg.folder]))

/-- `TimeMachine.initiateTimeTravel(yearKey)` given the destination config the
keyboard handler already looked up: no-op while the wormhole runs; otherwise
pauses the slideshow, stores `pendingYearKey`, and starts the wormhole. -/
def initiateTimeTravel (s : TMState) (k : Nat) (dest : YearConfig) :
    TMState × List Ev :=
  if s.wormActive then (s, [])
  else
    let s1 := { s with slideshowPaused := true, pendingYearKey := some k }
    let r := wormholeStart s1 dest.display
    (r.1, Ev.pauseSlideshow :: r.2)

/-- `TimeMachine.completeTimeTravel()`: returns early when no
`pendingYearKey`; otherwise consumes it, awaits the wormhole stop sequence,
then navigates to the stored year. -/
def completeTimeTravel (s : TMState) : TMState × List Ev :=
  match s.pendingYearKey with
  | none => (s, [])
  | some k =>
      let s0 := { s with pendingYearKey := none }
      let r1 := wormholeStop s0
      let r2 := goToYear r1.1 k true
      (r2.1, r1.2 ++ r2.2)

/-- Keyboard digit handler (keys '1'–'5'): calls `initiateTimeTravel` only if
the key maps to a year and differs from `currentYearKey`. -/
def handleDigit (s : TMState) (d : Nat) : TMState × List Ev :=
  match years d with
  | none => (s, [])
  | some dest =>
      if d ≠ s.currentYearKey then initiateTimeTravel s d dest else (s, [])

/-- Spacebar handler: calls `completeTimeTravel` only while the wormhole
reports running. -/
def handleSpace (s : TMState) : TMState × List Ev :=
  if s.wormActive then completeTimeTravel s else (s, [])

/-- First phase of `TimeMachine.initiateAutomaticTimeTravel(yearKey)`, up to
the `wait(4000)` suspension: pauses the slideshow and starts the wormhole.
Note it does not store a pending year key. -/
def autoTravelStart (s : TMState) (k : Nat) : TMState × List Ev :=
  match years k with
  | none => (s, [])
  | some dest =>
      let s1 := { s with slideshowPaused := true }
      let r := wormholeStart s1 dest.display
      (r.1, Ev.pauseSlideshow :: r.2)

/-- Second phase of `initiateAutomaticTimeTravel`, after the dramatic hold:
awaits the wormhole stop sequence and navigates to the destination. -/
def autoTravelFinish (s : TMState) (k : Nat) : TMState × List Ev :=
  let r1 := wormholeStop s
  let r2 := goToYear r1.1 k true
  (r2.1, r1.2 ++ r2.2)

/-- `TimeMachine.initiateAutomaticTimeTravel(yearKey)`: start phase, the
4000 ms dramatic hold, then the finish phase. -/
def initiateAutomaticTimeTravel (s : TMState) (k : Nat) : TMState × List Ev :=
  match years k with
  | none => (s, [])
  | some _ =>
      let r1 := autoTravelStart s k
      let r2 := autoTravelFinish r1.1 k
      (r2.1, r1.2 ++ [Ev.waitMs 4000] ++ r2.2)

/-- `TimeMachine.checkScheduledTravel(currentHour)`, run on every clock
tick. -/
def checkScheduledTravel (s : TMState) (h : Nat) : TMState × List Ev :=
  if s.wormActive then (s, [])
  else
    match schedule h with
    | none => ({ s with lastScheduledHour := none }, [])
    | some k =>
        if s.lastScheduledHour = some h then (s, [])
        else if s.currentYearKey = k then
          ({ s with lastScheduledHour := some h }, [])
        else
          initiateAutomaticTimeTravel { s with lastScheduledHour := some h } k

/-- External stimuli the coordinator reacts to. -/
inductive Act where
  | digit (d : Nat)
  | space
  | tick (h : Nat)
deriving DecidableEq, Repr

/-- One stimulus processed to completion (each handler runs its awaited
sequence to the end before the next stimulus is dispatched). -/
def stepTM (s : TMState) (a : Act) : TMState :=
  match a with
  | .digit d => (handleDigit s d).1
  | .space => (handleSpace s).1
  | .tick h => (checkScheduledTravel s h).1

/-- Scanning from the head of a trace: no media reload (`loadMedia`) and no
period commit (`commitYear`) may occur before a `flashResolved` event has
been seen. -/
def flashBeforeCommitAndLoad : List Ev → Bool
  | [] => true
  | Ev.flashResolved :: _ => true
  | Ev.loadMedia _ :: _ => false
  | Ev.commitYear _ :: _ => false
  | _ :: tr => flashBeforeCommitAndLoad tr

/-- Whether a trace contains a wormhole activation. -/
def startsWormhole (tr : List Ev) : Bool :=
  tr.any fun e => match e with | Ev.wormStart _ => true | _ => false

end TimeMachineModel

namespace ChimesModel

/-- `this.bellDelay`: milliseconds between bell strikes. -/
def bellDelay : Nat := 1920

/-- `ChimesManager.getChimeCount(hour24)`: 24-hour hour mapped to a 12-hour
strike count. -/
def getChimeCount (hour24 : Nat) : Nat :=
  let hour12 := hour24 % 12
  if hour12 = 0 then 12 else hour12

/-- Events emitted by a chime sequence. A strike is either the pre-supplied
bell asset playing or the synthesized fallback (`playSynthBell`) invoked from
inside `playBell`. -/
inductive BellEv where
  | strikeBell
  | strikeSynth
  | wait (ms : Nat)
  | showIndicator
  | hideIndicator
deriving DecidableEq, Repr

/-- Is this event a bell strike (of either kind)? -/
def isStrike : BellEv → Bool
  | BellEv.strikeBell => true
  | BellEv.strikeSynth => true
  | _ => false

/-- Is this event an inter-strike wait? -/
def isWait : BellEv → Bool
  | BellEv.wait _ => true
  | _ => false

/-- State of `ChimesManager` together with the DOM/audio environment it
reads: whether the `audio-bell` element exists (`this.audioBell` non-null),
and whether that element has a usable source whose `play()` resolves (the
branch condition inside `playBell`). -/
structure ChimeState where
  isChiming : Bool
  lastChimeHour : Int
  audioBell : Bool
  bellSrcOk : Bool
deriving DecidableEq, Repr

/-- Constructor state: `lastChimeHour = -1`, not chiming. -/
def initChime (bellPresent srcOk : Bool) : ChimeState :=
  { isChiming := false, lastChimeHour := -1,
    audioBell := bellPresent, bellSrcOk := srcOk }

/-- One `playBell()` call: uses the asset when available and playable, else
the synthesized fallback — the fallback decision is local to the strike. -/
def strikeEv (s : ChimeState) : BellEv :=
  if s.bellSrcOk then BellEv.strikeBell else BellEv.strikeSynth

/-- The `for` loop body of `chime(count)` from loop index `i` upward: play a
bell, then wait `bellDelay` except after the last strike. -/
def chimeLoopFrom (stk : BellEv) (count i : Nat) : List BellEv :=
  if i < count then
    (stk :: (if i < count - 1 then [BellEv.wait bellDelay] else [])) ++
      chimeLoopFrom stk count (i + 1)
  else []
termination_by count - i
decreasing_by omega

/-- The full strike/wait sequence of `chime(count)`. -/
def chimeLoop (stk : BellEv) (count : Nat) : List BellEv :=
  chimeLoopFrom stk count 0

/-- Closed form of the strike loop: `n` strikes interspersed with single
waits, no trailing wait. -/
def seqN (stk : BellEv) : Nat → List BellEv
  | 0 => []
  | 1 => [stk]
  | n + 2 => stk :: BellEv.wait bellDelay :: seqN stk (n + 1)

/-- Is this event a strike played through the synthesized fallback? -/
def isSynthStrike : BellEv → Bool
  | BellEv.strikeSynth => true
  | _ => false

/-- Is this event a strike played through the pre-supplied bell asset? -/
def isBellStrike : BellEv → Bool
  | BellEv.strikeBell => true
  | _ => false

/-- `ChimesManager.chime(count)`: guarded no-op when already chiming or when
the bell element is missing; otherwise sets `isChiming`, shows the
indicator, runs the strike loop, clears `isChiming`, hides the indicator. -/
def chime (s : ChimeState) (count : Nat) : ChimeState × List BellEv :=
  if s.isChiming || !s.audioBell then (s, [])
  else
    let s1 := { s with isChiming := true }
    let s2 := { s1 with isChiming := false }
    (s2, BellEv.showIndicator :: (chimeLoop (strikeEv s) count ++ [BellEv.hideIndicator]))

/-- `ChimesManager.testChime(count)`: logs and calls `chime(count)`; never
touches `lastChimeHour`. -/
def testChime (s : ChimeState) (count : Nat) : ChimeState × List BellEv :=
  chime s count

/-- `ChimesManager.checkTime()` at wall-clock hour `h`, minute `m`: chimes
only at the top of the hour, once per hour value, and not mid-sequence.
`lastChimeHour` is written before `chime` runs. -/
def checkTime (s : ChimeState) (h m : Nat) : ChimeState × List BellEv :=
  if m = 0 && (h : Int) != s.lastChimeHour && !s.isChiming then
    chime { s with lastChimeHour := (h : Int) } (getChimeCount h)
  else (s, [])

/-!
Interleaving model for the re-entrancy claim: the hourly trigger and the
manual test trigger are timer/keyboard callbacks that may fire at any awaited
suspension point of a running sequence. A running sequence is tracked by the
ghost counter `running`; a sequence's epilogue (`isChiming = false`) is the
`finish` event, which in the program occurs exactly once per started
sequence.
-/

/-- Chime system state with a ghost count of in-flight sequences. -/
structure ChimeSys where
  isChiming : Bool
  lastChimeHour : Int
  audioBell : Bool
  running : Nat
deriving DecidableEq, Repr

/-- Initial chime system state. -/
def initChimeSys (bellPresent : Bool) : ChimeSys :=
  { isChiming := false, lastChimeHour := -1, audioBell := bellPresent,
    running := 0 }

/-- Interleaved stimuli: a clock tick at hour `h`, minute `m`; a manual test
trigger; the epilogue of a running sequence. -/
inductive ChimeAct where
  | tick (h m : Nat)
  | test
  | finish
deriving DecidableEq, Repr

/-- Entry of `chime`: the `isChiming`/`audioBell` guard, then the sequence
starts (`isChiming := true`, one more sequence in flight). -/
def chimeEnter (s : ChimeSys) : ChimeSys :=
  if s.isChiming || !s.audioBell then s
  else { s with isChiming := true, running := s.running + 1 }

/-- One interleaved stimulus. -/
def stepChime (s : ChimeSys) : ChimeAct → ChimeSys
  | ChimeAct.tick h m =>
      if m = 0 && (h : Int) != s.lastChimeHour && !s.isChiming then
        chimeEnter { s with lastChimeHour := (h : Int) }
      else s
  | ChimeAct.test => chimeEnter s
  | ChimeAct.finish =>
      if s.running = 0 then s
      else { s with isChiming := false, running := s.running - 1 }

end ChimesModel

namespace FactsModel

/-- The default line substituted when a facts fetch throws. -/
def defaultFactLine : List Char := "Temporal data unavailable for this era.".toList

/-- The fallback used by `startFactsRotation` when the period key has no
stored entry at all. -/
def noDataLine : List Char := "No data available.".toList

/-- Result of `fetch` + `response.text()` for a facts file. -/
inductive FetchResult where
  | success (text : List Char)
  | failure
deriving DecidableEq, Repr

/-- JavaScript whitespace trimmed by `String.prototype.trim` (the characters
relevant to plain-text fact files). -/
def isWS (c : Char) : Bool :=
  c = ' ' || c = '\t' || c = '\n' || c = '\r'

/-- `line.trim()`. -/
def trimChars (cs : List Char) : List Char :=
  ((cs.dropWhile isWS).reverse.dropWhile isWS).reverse

/-- `text.split('\n')` on character lists. -/
def splitLinesAux : List Char → List Char → List (List Char)
  | [], acc => [acc.reverse]
  | c :: rest, acc =>
      if c = '\n' then acc.reverse :: splitLinesAux rest []
      else splitLinesAux rest (c :: acc)

/-- The facts-parsing pipeline of `loadAllFacts`:
`text.split('\n').map(trim).filter(length > 0)`. -/
def parseFacts (text : List Char) : List (List Char) :=
  ((splitLinesAux text []).map trimChars).filter (fun l => l.length > 0)

/-- `loadAllFacts` for one period folder: the parsed lines on success, the
single default line when the fetch throws. -/
def loadFactsFor : FetchResult → List (List Char)
  | FetchResult.success t => parseFacts t
  | FetchResult.failure => [defaultFactLine]

/-- `startFactsRotation`'s source list: `this.facts[folder] ||
['No data available.']` — the fallback fires only when the entry is absent
(an empty array is truthy in JavaScript). -/
def tickerFactsSource : Option (List (List Char)) → List (List Char)
  | none => [noDataLine]
  | some l => l

end FactsModel

/-! ## Theorems -/

namespace TimeMachineModel

lemma goToYear_pending (s : TMState) (k : Nat) (a : Bool) :
    (goToYear s k a).1.pendingYearKey = s.pendingYearKey := by
  unfold goToYear
  split <;> rfl

lemma initiateAutomaticTimeTravel_pending (s : TMState) (k : Nat) :
    (initiateAutomaticTimeTravel s k).1.pendingYearKey = s.pendingYearKey := by
  unfold initiateAutomaticTimeTravel autoTravelStart autoTravelFinish
  split
  · rfl
  · rename_i dest heq
    simp only [heq, wormholeStart, wormholeStop]
    split_ifs <;> simp [goToYear_pending]

lemma wormholeStop_pending (s : TMState) :
    (wormholeStop s).1.pendingYearKey = s.pendingYearKey := by
  unfold wormholeStop
  split <;> rfl

lemma stepTM_preserves_pending_inv (s : TMState) (a : Act)
    (h : s.pendingYearKey ≠ none → s.wormActive = true) :
    (stepTM s a).pendingYearKey ≠ none → (stepTM s a).wormActive = true := by
  obtain ⟨cur, pend, last, worm, paused⟩ := s
  cases a with
  | digit d =>
    cases worm with
    | false =>
      simp only [stepTM]
      unfold handleDigit
      split
      · exact h
      · split
        · simp [initiateTimeTravel, wormholeStart]
        · exact h
    | true =>
      simp only [stepTM]
      unfold handleDigit
      split
      · exact h
      · split
        · simp [initiateTimeTravel]
        · exact h
  | space =>
    cases worm with
    | false => simpa [stepTM, handleSpace] using h
    | true =>
      cases pend with
      | none => simp [stepTM, handleSpace, completeTimeTravel]
      | some k =>
        intro hne
        exfalso
        apply hne
        simp [stepTM, handleSpace, completeTimeTravel,
          goToYear_pending, wormholeStop_pending]
  | tick hr =>
    cases worm with
    | true => simp [stepTM, checkScheduledTravel]
    | false =>
      cases pend with
      | some k0 =>
        have hfalse := h (by simp)
        simp at hfalse
      | none =>
        simp only [stepTM]
        unfold checkScheduledTravel
        simp only [Bool.false_eq_true, if_false]
        split
        · simp
        · split
          · simp
          · split
            · simp
            · intro hne
              simp [initiateAutomaticTimeTravel_pending] at hne

lemma pending_inv_foldl (acts : List Act) :
    ∀ s : TMState, (s.pendingYearKey ≠ none → s.wormActive = true) →
      ((acts.foldl stepTM s).pendingYearKey ≠ none →
        (acts.foldl stepTM s).wormActive = true) := by
  induction acts with
  | nil => intro s h; exact h
  | cons a rest ih =>
    intro s h
    exact ih (stepTM s a) (stepTM_preserves_pending_inv s a h)

end TimeMachineModel

/-- C1 counterexample: an automatic transition episode starts (the engine
reports active) without the pending destination being set — `pendingYearKey`
stays `none` through `initiateAutomaticTimeTravel`, falsifying "the pending
destination is set when the transition starts" for automatic episodes. -/
theorem c1_counterexample :
    ¬ ((TimeMachineModel.autoTravelStart
          TimeMachineModel.initState 2).1.wormActive = true →
        (TimeMachineModel.autoTravelStart
          TimeMachineModel.initState 2).1.pendingYearKey ≠ none) := by
  decide

/-- C1 amended: `pendingYearKey` is non-empty only while the wormhole reports
active (over every reachable state); it is set at the start and cleared at
the completion of a *manual* transition episode; automatic episodes never
touch it — they pass the destination directly instead of queueing it. -/
theorem c1_amended_pending_invariant :
    (∀ acts : List TimeMachineModel.Act,
        ((acts.foldl TimeMachineModel.stepTM
            TimeMachineModel.initState).pendingYearKey ≠ none →
          (acts.foldl TimeMachineModel.stepTM
            TimeMachineModel.initState).wormActive = true)) ∧
    (∀ s d cfg, s.wormActive = false → TimeMachineModel.years d = some cfg →
        d ≠ s.currentYearKey →
        (TimeMachineModel.handleDigit s d).1.pendingYearKey = some d) ∧
    (∀ s : TimeMachineModel.TMState, s.wormActive = true →
        s.pendingYearKey ≠ none →
        (TimeMachineModel.handleSpace s).1.pendingYearKey = none) ∧
    (∀ s k, (TimeMachineModel.initiateAutomaticTimeTravel
        s k).1.pendingYearKey = s.pendingYearKey) := by
  refine ⟨?_, ?_, ?_, ?_⟩
  · intro acts
    exact TimeMachineModel.pending_inv_foldl acts TimeMachineModel.initState
      (fun hne => absurd rfl hne)
  · intro s d cfg hw hy hd
    simp [TimeMachineModel.handleDigit, hy, hd,
      TimeMachineModel.initiateTimeTravel, hw, TimeMachineModel.wormholeStart]
  · intro s hw hp
    simp only [TimeMachineModel.handleSpace, hw, if_true]
    unfold TimeMachineModel.completeTimeTravel
    cases hpend : s.pendingYearKey with
    | none => exact absurd hpend hp
    | some k =>
      simp [TimeMachineModel.goToYear_pending,
        TimeMachineModel.wormholeStop_pending]
  · intro s k
    exact TimeMachineModel.initiateAutomaticTimeTravel_pending s k

/-- C1 witness: the invariant and the manual set/clear behaviour evaluated on
concrete episodes (manual travel to period 3, automatic travel to period
2). -/
theorem c1_witness :
    ([TimeMachineModel.Act.digit 3].foldl TimeMachineModel.stepTM
        TimeMachineModel.initState).wormActive = true ∧
    (TimeMachineModel.handleDigit
        TimeMachineModel.initState 3).1.pendingYearKey = some 3 ∧
    (TimeMachineModel.handleSpace
      { TimeMachineModel.initState with
          pendingYearKey := some 3
          slideshowPaused := true
          wormActive := true }).1.pendingYearKey = none ∧
    (TimeMachineModel.initiateAutomaticTimeTravel
        TimeMachineModel.initState 2).1.pendingYearKey =
      TimeMachineModel.initState.pendingYearKey := by
  refine ⟨?_, ?_, ?_, ?_⟩
  · exact c1_amended_pending_invariant.1 [TimeMachineModel.Act.digit 3]
      (by decide)
  · exact c1_amended_pending_invariant.2.1 TimeMachineModel.initState 3
      ⟨"1751", "CE", "1751", "1751 CE"⟩ rfl rfl (by decide)
  · exact c1_amended_pending_invariant.2.2.1
      { TimeMachineModel.initState with
          pendingYearKey := some 3
          slideshowPaused := true
          wormActive := true } rfl (by decide)
  · exact c1_amended_pending_invariant.2.2.2 TimeMachineModel.initState 2

/-- C4 counterexample: a clock tick at hour 1 (no schedule entry) while the
wormhole is active leaves `lastScheduledHour = some 0` instead of resetting
it to empty — the reset clause fails on ticks during an active transition. -/
theorem c4_counterexample :
    ¬ ((TimeMachineModel.checkScheduledTravel
          { currentYearKey := 5, pendingYearKey := some 2,
            lastScheduledHour := some 0, wormActive := true,
            slideshowPaused := true } 1).1.lastScheduledHour = none) := by
  decide

/-- C4 amended: scheduled travel fires at most once per hour occurrence — a
tick whose hour equals `lastScheduledHour` never starts a transition — and
`lastScheduledHour` is reset to empty on a tick whose hour has no schedule
entry *provided the wormhole is not active*; ticks while the wormhole is
active are ignored entirely. -/
theorem c4_amended_schedule_once :
    (∀ (s : TimeMachineModel.TMState) (h : Nat),
        s.lastScheduledHour = some h →
        TimeMachineModel.startsWormhole
          (TimeMachineModel.checkScheduledTravel s h).2 = false) ∧
    (∀ (s : TimeMachineModel.TMState) (h : Nat), s.wormActive = false →
        TimeMachineModel.schedule h = none →
        (TimeMachineModel.checkScheduledTravel s h).1.lastScheduledHour =
          none) ∧
    (∀ (s : TimeMachineModel.TMState) (h : Nat), s.wormActive = true →
        TimeMachineModel.checkScheduledTravel s h = (s, [])) := by
  refine ⟨?_, ?_, ?_⟩
  · intro s h hl
    by_cases hw : s.wormActive = true
    · simp [TimeMachineModel.checkScheduledTravel, hw,
        TimeMachineModel.startsWormhole]
    · simp only [Bool.not_eq_true] at hw
      cases hs : TimeMachineModel.schedule h <;>
        simp [TimeMachineModel.checkScheduledTravel, hw, hs, hl,
          TimeMachineModel.startsWormhole]
  · intro s h hw hs
    simp [TimeMachineModel.checkScheduledTravel, hw, hs]
  · intro s h hw
    simp [TimeMachineModel.checkScheduledTravel, hw]

/-- C4 witness: concrete ticks — a re-tick of the already-triggered hour 21
starts nothing; a tick at scheduleless hour 1 while idle resets the cursor;
a tick while the wormhole runs is ignored. -/
theorem c4_witness :
    TimeMachineModel.startsWormhole
      (TimeMachineModel.checkScheduledTravel
        { TimeMachineModel.initState with lastScheduledHour := some 21 }
        21).2 = false ∧
    (TimeMachineModel.checkScheduledTravel
      { TimeMachineModel.initState with lastScheduledHour := some 0 }
      1).1.lastScheduledHour = none ∧
    TimeMachineModel.checkScheduledTravel
      { TimeMachineModel.initState with wormActive := true } 1 =
      ({ TimeMachineModel.initState with wormActive := true }, []) := by
  refine ⟨?_, ?_, ?_⟩
  · exact c4_amended_schedule_once.1
      { TimeMachineModel.initState with lastScheduledHour := some 21 } 21 rfl
  · exact c4_amended_schedule_once.2.1
      { TimeMachineModel.initState with lastScheduledHour := some 0 } 1
      rfl rfl
  · exact c4_amended_schedule_once.2.2
      { TimeMachineModel.initState with wormActive := true } 1 rfl

/-- C5 counterexample: at hour 20 (scheduled target 1 = `currentYearKey`)
during an active wormhole, the tick does not mark the hour as triggered —
`lastScheduledHour` stays `none` instead of becoming `some 20`. -/
theorem c5_counterexample :
    ¬ ((TimeMachineModel.checkScheduledTravel
          { currentYearKey := 1, pendingYearKey := some 2,
            lastScheduledHour := none, wormActive := true,
            slideshowPaused := true } 20).1.lastScheduledHour = some 20) := by
  decide

/-- C5 amended: on a clock tick processed while the wormhole is inactive,
whose hour has a schedule entry whose target equals `currentYearKey`, the
hour is marked triggered and nothing else happens: no engine start, no
slideshow pause, no period change (the entire result is the marked state and
an empty event trace). -/
theorem c5_amended_mark_without_activation
    (s : TimeMachineModel.TMState) (h k : Nat)
    (hw : s.wormActive = false) (hs : TimeMachineModel.schedule h = some k)
    (hc : s.currentYearKey = k) :
    TimeMachineModel.checkScheduledTravel s h =
      ({ s with lastScheduledHour := some h }, []) := by
  obtain ⟨cur, pend, last, worm, paused⟩ := s
  simp only at hw hc
  subst hw
  subst hc
  unfold TimeMachineModel.checkScheduledTravel
  simp only [hs, Bool.false_eq_true, if_false]
  by_cases hl : last = some h
  · subst hl
    simp
  · simp [hl]

/-- C5 witness: the initial state (period 1) ticked at hour 20, whose
scheduled target is period 1: the hour is marked, nothing else changes. -/
theorem c5_witness :
    TimeMachineModel.checkScheduledTravel TimeMachineModel.initState 20 =
      ({ TimeMachineModel.initState with lastScheduledHour := some 20 },
       []) := by
  exact c5_amended_mark_without_activation
    TimeMachineModel.initState 20 1 rfl rfl rfl

/-- C2: on the manual complete path (spacebar), the wormhole stop sequence
resolves the arrival-flash promise before the coordinator commits the new
current period or begins reloading media: in the emitted event order, no
`commitYear` or `loadMedia` event precedes `flashResolved`. -/
theorem c2_flash_before_commit (s : TimeMachineModel.TMState) :
    TimeMachineModel.flashBeforeCommitAndLoad
      (TimeMachineModel.handleSpace s).2 = true := by
  obtain ⟨cur, pend, last, worm, paused⟩ := s
  cases worm with
  | false => rfl
  | true =>
    cases pend with
    | none => rfl
    | some k => rfl

/-- C3: a manual period-selection input for a valid period key starts a
transition iff idle and the key differs from the current period, and is a
no-op otherwise; the complete-transition input is accepted iff transitioning
with a pending period, and is a no-op otherwise. -/
theorem c3_manual_trigger_contract :
    (∀ s d cfg, s.wormActive = false → TimeMachineModel.years d = some cfg →
        d ≠ s.currentYearKey →
        TimeMachineModel.handleDigit s d =
          ({ s with
              pendingYearKey := some d,
              slideshowPaused := true,
              wormActive := true },
           [TimeMachineModel.Ev.pauseSlideshow,
            TimeMachineModel.Ev.wormStart cfg.display])) ∧
    (∀ s d cfg, TimeMachineModel.years d = some cfg →
        s.wormActive = true ∨ d = s.currentYearKey →
        TimeMachineModel.handleDigit s d = (s, [])) ∧
    (∀ s k cfg, s.wormActive = true → s.pendingYearKey = some k →
        TimeMachineModel.years k = some cfg →
        TimeMachineModel.handleSpace s =
          ({ s with
              pendingYearKey := none,
              wormActive := false,
              currentYearKey := k,
              slideshowPaused := false },
           [TimeMachineModel.Ev.stopDecorativeEffects,
            TimeMachineModel.Ev.stopLoopSound,
            TimeMachineModel.Ev.arrivalSound,
            TimeMachineModel.Ev.flashResolved,
            TimeMachineModel.Ev.hideWormhole,
            TimeMachineModel.Ev.commitYear k,
            TimeMachineModel.Ev.waitMs 200,
            TimeMachineModel.Ev.statusUpdate,
            TimeMachineModel.Ev.loadMedia cfg.folder,
            TimeMachineModel.Ev.factsReload cfg.folder])) ∧
    (∀ s, s.wormActive = false ∨ s.pendingYearKey = none →
        TimeMachineModel.handleSpace s = (s, [])) := by
  refine ⟨?_, ?_, ?_, ?_⟩
  · intro s d cfg hw hy hd
    simp [TimeMachineModel.handleDigit, hy, hd,
      TimeMachineModel.initiateTimeTravel, hw,
      TimeMachineModel.wormholeStart]
  · intro s d cfg hy hcase
    rcases hcase with hw | hd
    · simp [TimeMachineModel.handleDigit, hy,
        TimeMachineModel.initiateTimeTravel, hw]
    · subst hd
      unfold TimeMachineModel.handleDigit
      split <;> simp
  · intro s k cfg hw hp hy
    obtain ⟨cur, pend, last, worm, paused⟩ := s
    simp only at hw hp
    subst hw hp
    simp [TimeMachineModel.handleSpace, TimeMachineModel.completeTimeTravel,
      TimeMachineModel.wormholeStop, TimeMachineModel.goToYear, hy]
  · intro s hcase
    rcases hcase with hw | hp
    · simp [TimeMachineModel.handleSpace, hw]
    · obtain ⟨cur, pend, last, worm, paused⟩ := s
      simp only at hp
      subst hp
      cases worm <;>
        simp [TimeMachineModel.handleSpace, TimeMachineModel.completeTimeTravel]

/-- C3 witness: pressing '3' while idle at period 1 starts a transition with
pending 3; completing it commits period 3. -/
theorem c3_witness :
    TimeMachineModel.handleDigit TimeMachineModel.initState 3 =
      ({ TimeMachineModel.initState with
          pendingYearKey := some 3
          slideshowPaused := true
          wormActive := true },
       [TimeMachineModel.Ev.pauseSlideshow,
        TimeMachineModel.Ev.wormStart "1751 CE"]) ∧
    TimeMachineModel.handleDigit
      { TimeMachineModel.initState with
          pendingYearKey := some 3
          slideshowPaused := true
          wormActive := true } 2 =
      ({ TimeMachineModel.initState with
          pendingYearKey := some 3
          slideshowPaused := true
          wormActive := true }, []) := by
  constructor
  · exact c3_manual_trigger_contract.1 TimeMachineModel.initState 3
      ⟨"1751", "CE", "1751", "1751 CE"⟩ rfl rfl (by decide)
  · exact c3_manual_trigger_contract.2.1
      { TimeMachineModel.initState with
          pendingYearKey := some 3
          slideshowPaused := true
          wormActive := true } 2
      ⟨"1969", "CE", "1969", "1969 CE"⟩ rfl (Or.inl rfl)

/-- C6: for every hour-of-day below 24, the chime repeat count is 12 when the
hour is divisible by 12 and `h mod 12` otherwise, and always lies in 1–12. -/
theorem c6_chime_count (h : Nat) (_hlt : h < 24) :
    (h % 12 = 0 → ChimesModel.getChimeCount h = 12) ∧
    (h % 12 ≠ 0 → ChimesModel.getChimeCount h = h % 12) ∧
    1 ≤ ChimesModel.getChimeCount h ∧ ChimesModel.getChimeCount h ≤ 12 := by
  simp only [ChimesModel.getChimeCount]
  split_ifs with h0 <;> omega

/-- C6 witness: hour 13 chimes once; hour 0 chimes twelve times. -/
theorem c6_witness :
    ChimesModel.getChimeCount 13 = 1 ∧ ChimesModel.getChimeCount 0 = 12 := by
  constructor
  · exact ((c6_chime_count 13 (by norm_num)).2.1 (by norm_num)).trans (by norm_num)
  · exact (c6_chime_count 0 (by norm_num)).1 (by norm_num)

namespace ChimesModel

lemma chimeLoopFrom_eq (stk : BellEv) :
    ∀ n count i : Nat, count - i = n →
      chimeLoopFrom stk count i = seqN stk n := by
  intro n
  induction n using Nat.strong_induction_on with
  | _ n ih =>
    intro count i hn
    unfold chimeLoopFrom
    by_cases hi : i < count
    · rw [if_pos hi]
      cases n with
      | zero => omega
      | succ m =>
        cases m with
        | zero =>
          have h2 : ¬ i < count - 1 := by omega
          rw [if_neg h2, ih 0 (by omega) count (i + 1) (by omega)]
          simp [seqN]
        | succ p =>
          have h2 : i < count - 1 := by omega
          rw [if_pos h2, ih (p + 1) (by omega) count (i + 1) (by omega)]
          simp [seqN]
    · rw [if_neg hi]
      have hz : n = 0 := by omega
      subst hz
      simp [seqN]

lemma chimeLoop_eq_seqN (stk : BellEv) (count : Nat) :
    chimeLoop stk count = seqN stk count :=
  chimeLoopFrom_eq stk count count 0 (by omega)

lemma seqN_countP (stk : BellEv) (p : BellEv → Bool) :
    ∀ n, (seqN stk n).countP p =
      (if p stk then n else 0) +
        (if p (BellEv.wait bellDelay) then n - 1 else 0) := by
  intro n
  induction n using Nat.strong_induction_on with
  | _ n ih =>
    match n with
    | 0 => simp [seqN]
    | 1 =>
      simp only [seqN, List.countP_cons, List.countP_nil]
      split_ifs <;> simp_all
    | (m + 2) =>
      have hm := ih (m + 1) (by omega)
      simp only [seqN, List.countP_cons, hm]
      split_ifs <;> omega

lemma seqN_ne_nil (stk : BellEv) (n : Nat) : seqN stk (n + 1) ≠ [] := by
  cases n with
  | zero => simp [seqN]
  | succ m => simp [seqN]

lemma seqN_getLast (stk : BellEv) :
    ∀ n : Nat, (seqN stk (n + 1)).getLast? = some stk := by
  intro n
  induction n using Nat.strong_induction_on with
  | _ n ih =>
    cases n with
    | zero => simp [seqN]
    | succ m =>
      have hne := seqN_ne_nil stk m
      have hrw : seqN stk (m + 2) =
          stk :: BellEv.wait bellDelay :: seqN stk (m + 1) := rfl
      rw [hrw, List.getLast?_cons_cons]
      cases hsq : seqN stk (m + 1) with
      | nil => exact absurd hsq hne
      | cons b t =>
        rw [List.getLast?_cons_cons, ← hsq]
        exact ih m (by omega)

lemma seqN_wait_mem (stk : BellEv) (hstk : isWait stk = false) :
    ∀ n, ∀ e ∈ seqN stk n, isWait e = true →
      e = BellEv.wait bellDelay := by
  intro n
  induction n using Nat.strong_induction_on with
  | _ n ih =>
    cases n with
    | zero => simp [seqN]
    | succ m =>
      cases m with
      | zero =>
        intro e he hw
        simp only [seqN, List.mem_singleton] at he
        subst he
        rw [hstk] at hw
        exact absurd hw (by simp)
      | succ p =>
        intro e he hw
        simp only [seqN, List.mem_cons] at he
        rcases he with he | he | he
        · subst he
          rw [hstk] at hw
          exact absurd hw (by simp)
        · exact he
        · exact ih (p + 1) (by omega) e he hw

lemma strikeEv_not_wait (s : ChimeState) : isWait (strikeEv s) = false := by
  unfold strikeEv
  split <;> rfl

lemma strikeEv_isStrike (s : ChimeState) : isStrike (strikeEv s) = true := by
  unfold strikeEv
  split <;> rfl

lemma chime_fst (s : ChimeState) (count : Nat) : (chime s count).1 = s := by
  unfold chime
  split
  · rfl
  · rename_i hguard
    simp only [Bool.or_eq_true, Bool.not_eq_true'] at hguard
    push_neg at hguard
    obtain ⟨cur, last, bell, src⟩ := s
    simp only [Bool.not_eq_true] at hguard
    simp_all

lemma chime_snd (s : ChimeState) (count : Nat)
    (hc : s.isChiming = false) (hb : s.audioBell = true) :
    (chime s count).2 =
      BellEv.showIndicator ::
        (chimeLoop (strikeEv s) count ++ [BellEv.hideIndicator]) := by
  unfold chime
  rw [if_neg]
  simp [hc, hb]

lemma stepChime_inv (s : ChimeSys) (a : ChimeAct)
    (h : s.running = if s.isChiming then 1 else 0) :
    (stepChime s a).running =
      if (stepChime s a).isChiming then 1 else 0 := by
  obtain ⟨chim, last, bell, run⟩ := s
  cases a with
  | tick hr m =>
    simp only at h
    cases chim with
    | true => simpa [stepChime] using h
    | false =>
      simp only [stepChime]
      split
      · cases bell <;> simp_all [chimeEnter]
      · simpa using h
  | test =>
    simp only at h
    cases chim with
    | true => simpa [stepChime, chimeEnter] using h
    | false => cases bell <;> simp_all [stepChime, chimeEnter]
  | finish =>
    simp only at h
    simp only [stepChime]
    split
    · simpa using h
    · cases chim <;> simp_all

lemma sys_inv_foldl (evs : List ChimeAct) :
    ∀ s : ChimeSys, s.running = (if s.isChiming then 1 else 0) →
      (evs.foldl stepChime s).running =
        if (evs.foldl stepChime s).isChiming then 1 else 0 := by
  induction evs with
  | nil => intro s h; exact h
  | cons a rest ih =>
    intro s h
    exact ih (stepChime s a) (stepChime_inv s a h)

end ChimesModel

/-- C7: a chime sequence of count N plays exactly N strikes with exactly
N−1 inter-strike waits, every wait is the fixed `bellDelay`, and the
sequence ends on a strike (no trailing wait); and under any interleaving of
the hourly auto-trigger, the manual test trigger and sequence completions,
at most one chime sequence is ever in flight (`isChiming` guard). -/
theorem c7_chime_sequence_and_exclusion :
    (∀ (s : ChimesModel.ChimeState) (N : Nat),
        s.isChiming = false → s.audioBell = true →
        ((ChimesModel.chime s N).2.countP ChimesModel.isStrike = N ∧
         (ChimesModel.chime s N).2.countP ChimesModel.isWait = N - 1 ∧
         (∀ e ∈ (ChimesModel.chime s N).2, ChimesModel.isWait e = true →
            e = ChimesModel.BellEv.wait ChimesModel.bellDelay) ∧
         (1 ≤ N →
            (ChimesModel.chimeLoop (ChimesModel.strikeEv s) N).getLast? =
              some (ChimesModel.strikeEv s) ∧
            ChimesModel.isStrike (ChimesModel.strikeEv s) = true))) ∧
    (∀ (bell : Bool) (evs : List ChimesModel.ChimeAct),
        (evs.foldl ChimesModel.stepChime
          (ChimesModel.initChimeSys bell)).running ≤ 1) := by
  constructor
  · intro s N hc hb
    rw [ChimesModel.chime_snd s N hc hb]
    have hstk := ChimesModel.strikeEv_isStrike s
    have hwait : ChimesModel.isWait
        (ChimesModel.BellEv.wait ChimesModel.bellDelay) = true := rfl
    have hloop := ChimesModel.chimeLoop_eq_seqN (ChimesModel.strikeEv s) N
    refine ⟨?_, ?_, ?_, ?_⟩
    · simp only [List.countP_cons, List.countP_append, hloop,
        ChimesModel.seqN_countP, hstk]
      simp [ChimesModel.isStrike]
    · have hw1 := ChimesModel.strikeEv_not_wait s
      have h2 : ChimesModel.isWait ChimesModel.BellEv.showIndicator =
        false := rfl
      have h3 : ChimesModel.isWait ChimesModel.BellEv.hideIndicator =
        false := rfl
      simp [List.countP_cons, List.countP_append, hloop,
        ChimesModel.seqN_countP, hw1, h2, h3, hwait]
    · intro e he hw
      simp only [List.mem_cons, List.mem_append, List.mem_singleton,
        List.not_mem_nil, or_false] at he
      rcases he with he | he | he
      · subst he; simp [ChimesModel.isWait] at hw
      · exact ChimesModel.seqN_wait_mem (ChimesModel.strikeEv s)
          (ChimesModel.strikeEv_not_wait s) N e (hloop ▸ he) hw
      · subst he; simp [ChimesModel.isWait] at hw
    · intro hN
      refine ⟨?_, hstk⟩
      obtain ⟨m, rfl⟩ : ∃ m, N = m + 1 := ⟨N - 1, by omega⟩
      rw [hloop]
      exact ChimesModel.seqN_getLast (ChimesModel.strikeEv s) m
  · intro bell evs
    have h := ChimesModel.sys_inv_foldl evs (ChimesModel.initChimeSys bell)
      (by simp [ChimesModel.initChimeSys])
    rw [h]
    split <;> omega

/-- C7 witness: a count-3 sequence with the asset bell present plays 3
strikes, 2 waits of `bellDelay`, ends on a strike; and a concrete
interleaving of test triggers and completions never has two sequences in
flight. -/
theorem c7_witness :
    (ChimesModel.chime (ChimesModel.initChime true true) 3).2.countP
        ChimesModel.isStrike = 3 ∧
    (ChimesModel.chime (ChimesModel.initChime true true) 3).2.countP
        ChimesModel.isWait = 2 ∧
    (ChimesModel.chimeLoop
        (ChimesModel.strikeEv (ChimesModel.initChime true true)) 3).getLast? =
      some (ChimesModel.strikeEv (ChimesModel.initChime true true)) ∧
    ([ChimesModel.ChimeAct.test, ChimesModel.ChimeAct.test,
        ChimesModel.ChimeAct.finish, ChimesModel.ChimeAct.test].foldl
      ChimesModel.stepChime (ChimesModel.initChimeSys true)).running ≤ 1 := by
  have h1 := c7_chime_sequence_and_exclusion.1
    (ChimesModel.initChime true true) 3 rfl rfl
  refine ⟨h1.1, h1.2.1, (h1.2.2.2 (by norm_num)).1, ?_⟩
  exact c7_chime_sequence_and_exclusion.2 true
    [ChimesModel.ChimeAct.test, ChimesModel.ChimeAct.test,
     ChimesModel.ChimeAct.finish, ChimesModel.ChimeAct.test]

/-- C9: the manual test trigger with count N, invoked while not chiming
(with the bell element present), plays exactly N strikes and leaves the
whole chime state — in particular `lastChimeHour` — unchanged. -/
theorem c9_test_chime (s : ChimesModel.ChimeState) (N : Nat)
    (hc : s.isChiming = false) (hb : s.audioBell = true) :
    (ChimesModel.testChime s N).1 = s ∧
    (ChimesModel.testChime s N).1.lastChimeHour = s.lastChimeHour ∧
    (ChimesModel.testChime s N).2.countP ChimesModel.isStrike = N := by
  refine ⟨ChimesModel.chime_fst s N, ?_, ?_⟩
  · show (ChimesModel.chime s N).1.lastChimeHour = s.lastChimeHour
    rw [ChimesModel.chime_fst s N]
  show (ChimesModel.chime s N).2.countP ChimesModel.isStrike = N
  rw [ChimesModel.chime_snd s N hc hb]
  simp only [List.countP_cons, List.countP_append,
    ChimesModel.chimeLoop_eq_seqN, ChimesModel.seqN_countP,
    ChimesModel.strikeEv_isStrike]
  simp [ChimesModel.isStrike]

/-- C9 witness: the bell test with count 3 while idle — 3 strikes,
`lastChimeHour` still −1. -/
theorem c9_witness :
    (ChimesModel.testChime (ChimesModel.initChime true true) 3).1 =
      ChimesModel.initChime true true ∧
    (ChimesModel.testChime
        (ChimesModel.initChime true true) 3).1.lastChimeHour = -1 ∧
    (ChimesModel.testChime (ChimesModel.initChime true true) 3).2.countP
      ChimesModel.isStrike = 3 := by
  have h := c9_test_chime (ChimesModel.initChime true true) 3 rfl rfl
  exact ⟨h.1, h.2.1, h.2.2⟩

/-- C10: when the bell audio element is absent, `chime` is a complete no-op:
state untouched and an empty event trace (no strike, no synthesized
fallback, no indicator); the synthesized fallback fires only inside an
individual strike, namely when the element exists but its source is
unusable. -/
theorem c10_missing_bell_noop :
    (∀ (s : ChimesModel.ChimeState) (N : Nat), s.audioBell = false →
        ChimesModel.chime s N = (s, [])) ∧
    (∀ (s : ChimesModel.ChimeState) (N : Nat), s.audioBell = true →
        s.isChiming = false → s.bellSrcOk = false →
        (ChimesModel.chime s N).2.countP ChimesModel.isSynthStrike = N ∧
        (ChimesModel.chime s N).2.countP ChimesModel.isBellStrike = 0) := by
  constructor
  · intro s N hb
    unfold ChimesModel.chime
    rw [if_pos]
    simp [hb]
  · intro s N hb hc hsrc
    rw [ChimesModel.chime_snd s N hc hb]
    have hstk : ChimesModel.strikeEv s = ChimesModel.BellEv.strikeSynth := by
      unfold ChimesModel.strikeEv
      rw [if_neg]
      simp [hsrc]
    constructor
    · simp only [List.countP_cons, List.countP_append,
        ChimesModel.chimeLoop_eq_seqN, ChimesModel.seqN_countP, hstk]
      simp [ChimesModel.isSynthStrike]
    · simp only [List.countP_cons, List.countP_append,
        ChimesModel.chimeLoop_eq_seqN, ChimesModel.seqN_countP, hstk]
      simp [ChimesModel.isBellStrike]

/-- C10 witness: with the bell element absent nothing at all happens; with
the element present but its source unusable, a count-2 sequence plays 2
synthesized strikes and 0 asset strikes. -/
theorem c10_witness :
    ChimesModel.chime (ChimesModel.initChime false true) 5 =
      (ChimesModel.initChime false true, []) ∧
    (ChimesModel.chime (ChimesModel.initChime true false) 2).2.countP
        ChimesModel.isSynthStrike = 2 ∧
    (ChimesModel.chime (ChimesModel.initChime true false) 2).2.countP
        ChimesModel.isBellStrike = 0 := by
  refine ⟨c10_missing_bell_noop.1 (ChimesModel.initChime false true) 5 rfl, ?_, ?_⟩
  · exact (c10_missing_bell_noop.2 (ChimesModel.initChime true false) 2
      rfl rfl rfl).1
  · exact (c10_missing_bell_noop.2 (ChimesModel.initChime true false) 2
      rfl rfl rfl).2

/-- C8 counterexample: a facts fetch that succeeds with empty content yields
an empty facts list, not the single default line — the catch branch of
`loadAllFacts` fires only when the fetch throws, and every line of an empty
body is filtered out. -/
theorem c8_counterexample :
    ¬ (FactsModel.loadFactsFor (FactsModel.FetchResult.success []) =
        [FactsModel.defaultFactLine]) := by
  decide

/-- C8 amended: a *failed* fetch stores the single default line, but a fetch
yielding empty content stores an empty facts list (the default is not
substituted), and `startFactsRotation`'s `|| ['No data available.']`
fallback does not apply to a stored empty list (a JavaScript empty array is
truthy) — so the ticker is then built from an empty fact set. -/
theorem c8_amended_empty_not_defaulted :
    FactsModel.loadFactsFor FactsModel.FetchResult.failure =
      [FactsModel.defaultFactLine] ∧
    FactsModel.loadFactsFor (FactsModel.FetchResult.success []) = [] ∧
    FactsModel.tickerFactsSource (some []) = [] ∧
    FactsModel.tickerFactsSource none = [FactsModel.noDataLine] := by
  exact ⟨rfl, by decide, rfl, rfl⟩
